import Mathlib

/-!
Shallow embedding of the melody generation service
(`backend/services/melody_service.py`): the music-theory helpers
(`MusicTheory.constrain_to_scale`, `MusicTheory.quantize_duration`),
the seed generator, the constrained generation loop
(`MelodyServiceV2._generate_with_constraints`), the demo fallback
generator (`MelodyServiceV2._generate_demo_melody`), and the
multi-track MIDI builder (`EnhancedMidiGenerator.notes_to_midi_base64`).

Modelling conventions:
- Python floats are modelled as exact rationals (`ℚ`); Python `round`
  is round-half-to-even (`pyRound`), Python `int()` truncates toward
  zero (`pyInt`), and Python `str.lower()` is `pyLower`.
- The predictive model (Oracle) is abstracted as a per-call prediction
  trace `ℕ → ℤ × ℚ × ℚ`; the fallible variant returns
  `Except String _` so that an exception raised inside the loop
  propagates as in Python.
- Process-wide pseudo-random draws (velocity humanization, demo-mode
  pitch choice and jitter) are explicit input streams.
- Python dicts holding note fields are modelled as association lists
  `List (String × ℚ)`; a missing key raises a `KeyError`, modelled by
  `Except`.
-/

namespace MelodyService

/-- Python `round` on a rational, rounding half to even (banker's rounding). -/
def pyRound (q : ℚ) : ℤ :=
  let f := ⌊q⌋
  let frac := q - f
  if frac < 1/2 then f
  else if 1/2 < frac then f + 1
  else if f % 2 = 0 then f else f + 1

/-- Python `int()` on a rational: truncation toward zero. -/
def pyInt (q : ℚ) : ℤ :=
  if q < 0 then -⌊-q⌋ else ⌊q⌋

/-- Python `str.lower()` (ASCII case folding, which covers all genre names used). -/
def pyLower (s : String) : String := ⟨s.data.map Char.toLower⟩

namespace MusicTheory

/-- Scale definitions (`MusicTheory.SCALES`): pitch-class offsets per named scale. -/
def SCALES : List (String × List ℤ) :=
  [("major", [0, 2, 4, 5, 7, 9, 11]),
   ("minor", [0, 2, 3, 5, 7, 8, 10]),
   ("pentatonic", [0, 2, 4, 7, 9]),
   ("blues", [0, 3, 5, 6, 7, 10])]

/-- The four scale value lists of `MusicTheory.SCALES`. -/
def SCALE_LIST : List (List ℤ) := SCALES.map Prod.snd

/-- Genre to scale-name mapping (`MusicTheory.GENRE_SCALE_MAP`). -/
def GENRE_SCALE_MAP : List (String × String) :=
  [("pop", "major"), ("rock", "pentatonic"), ("jazz", "blues"), ("classical", "major")]

/-- Embedding of `MusicTheory.get_scale_for_genre`: scale for a genre, defaulting to major. -/
def get_scale_for_genre (genre : String) : List ℤ :=
  let scale_name := (GENRE_SCALE_MAP.lookup (pyLower genre)).getD "major"
  (SCALES.lookup scale_name).getD []

/-- First element of the list minimizing `|note - s|`, as computed by
`distances.index(min(distances))` in `constrain_to_scale` (ties go to the
earliest scale position). -/
def nearestInList (note : ℤ) : List ℤ → ℤ
  | [] => 0
  | [s] => s
  | s :: t :: rest =>
    let r := nearestInList note (t :: rest)
    if |note - s| ≤ |note - r| then s else r

/-- Embedding of `MusicTheory.constrain_to_scale`: snap a MIDI pitch onto a scale;
out-of-range pitches map to middle C (60). -/
def constrain_to_scale (pitch : ℤ) (scale : List ℤ) : ℤ :=
  if pitch < 0 ∨ pitch > 127 then 60
  else
    let note := pitch % 12
    let octave := pitch / 12
    if note ∈ scale then pitch
    else
      let nearest_note := nearestInList note scale
      if nearest_note > note ∧ note < 6 then octave * 12 + nearest_note
      else octave * 12 + nearest_note

/-- Embedding of `MusicTheory.quantize_duration`: snap a duration to the grid; values
`≤ 0.05` collapse to 0; a positive value whose rounding yields 0 is clamped
up to one grid unit. -/
def quantize_duration (value : ℚ) (grid : ℚ) : ℚ :=
  if value ≤ 1/20 then 0
  else
    let quantized := (pyRound (value / grid) : ℚ) * grid
    if quantized = 0 ∧ value > 1/20 then grid
    else quantized

end MusicTheory

namespace SeedGenerator

/-- Genre to start-pitch mapping (`SeedGenerator.GENRE_START_PITCH`). -/
def GENRE_START_PITCH : List (String × ℤ) :=
  [("pop", 60), ("rock", 57), ("jazz", 63), ("classical", 64)]

/-- Embedding of `SeedGenerator.generate_smart_seed`: 15 padding triples followed by a
normalized ascending motif (step 0.5, duration 0.4 at reference tempo). -/
def generate_smart_seed (genre : String) (seq_length : ℕ)
    (vocab_size max_step max_duration : ℚ) : List (ℚ × ℚ × ℚ) :=
  let start_pitch := (GENRE_START_PITCH.lookup (pyLower genre)).getD 60
  (List.range seq_length).map fun i =>
    if i < 15 then (0, 0, 0)
    else
      let offset := i - 15
      let pitch := start_pitch + ((offset % 5 : ℕ) : ℤ)
      ((pitch : ℚ) / vocab_size, (1/2) / max_step, (2/5) / max_duration)

end SeedGenerator

/-- One generated note as built by `_generate_with_constraints`
(keys pitch/start/end/step/duration; start and end are accumulated
absolute seconds, step and duration are tempo-scaled). -/
structure NoteData where
  pitch : ℤ
  start : ℚ
  end_ : ℚ
  step : ℚ
  duration : ℚ
deriving DecidableEq

/-- Mutable state of the generation loop: the rolling normalized context
window (`input_notes`), the running time cursor (`prev_start`), the current
sampling temperature and the notes emitted so far. -/
structure GenState where
  input_notes : List (ℚ × ℚ × ℚ)
  prev_start : ℚ
  temperature : ℚ
  notes : List NoteData
deriving DecidableEq

/-- Tempo scaling factor `120.0 / max(tempo, 1)` used by the generation loop. -/
def tempo_scale (tempo : ℤ) : ℚ := 120 / ((max tempo 1 : ℤ) : ℚ)

/-- One iteration of the `_generate_with_constraints` loop body at index `i`,
applied to the raw prediction `pred` returned by the Oracle. -/
def genStep (scale : List ℤ) (ts vocab_size max_step max_duration : ℚ)
    (pred : ℤ × ℚ × ℚ) (i : ℕ) (st : GenState) : GenState :=
  let pitch := MusicTheory.constrain_to_scale pred.1 scale
  let step := MusicTheory.quantize_duration pred.2.1 (1/8)
  let duration := MusicTheory.quantize_duration pred.2.2 (1/8)
  let step := max (1/8) step
  let duration := max (1/8) duration
  let scaled_step := step * ts
  let scaled_duration := duration * ts
  let start := st.prev_start + scaled_step
  let end_ := start + scaled_duration
  let note_data : NoteData := ⟨pitch, start, end_, scaled_step, scaled_duration⟩
  let norm_new_note := ((pitch : ℚ) / vocab_size, step / max_step, duration / max_duration)
  let input_notes := st.input_notes.drop 1 ++ [norm_new_note]
  let temperature :=
    if i > 0 ∧ i % 16 = 0 then (if st.temperature > 1 then 9/10 else 6/5)
    else st.temperature
  ⟨input_notes, start, temperature, st.notes ++ [note_data]⟩

/-- The generation loop: run `genStep` for the remaining number of
iterations, with `i` the absolute iteration index. -/
def genLoop (oracle : ℕ → ℤ × ℚ × ℚ) (scale : List ℤ)
    (ts vocab_size max_step max_duration : ℚ) : ℕ → ℕ → GenState → GenState
  | _, 0, st => st
  | i, Nat.succ rem, st =>
    genLoop oracle scale ts vocab_size max_step max_duration (i + 1) rem
      (genStep scale ts vocab_size max_step max_duration (oracle i) i st)

/-- Embedding of `MelodyServiceV2._generate_with_constraints` with the Oracle abstracted
as a per-call prediction trace. -/
def generate_with_constraints (oracle : ℕ → ℤ × ℚ × ℚ) (total_notes : ℕ)
    (input_notes : List (ℚ × ℚ × ℚ)) (tempo : ℤ) (genre : String) (temperature : ℚ)
    (vocab_size max_step max_duration : ℚ) : List NoteData :=
  (genLoop oracle (MusicTheory.get_scale_for_genre genre) (tempo_scale tempo)
    vocab_size max_step max_duration 0 total_notes
    ⟨input_notes, 0, temperature, []⟩).notes

/-- Loop state after the first `k` iterations of `_generate_with_constraints`;
its `input_notes` field is the context window fed to the Oracle at call `k`. -/
def genStatesAfter (oracle : ℕ → ℤ × ℚ × ℚ) (input_notes : List (ℚ × ℚ × ℚ))
    (tempo : ℤ) (genre : String) (temperature : ℚ)
    (vocab_size max_step max_duration : ℚ) (k : ℕ) : GenState :=
  genLoop oracle (MusicTheory.get_scale_for_genre genre) (tempo_scale tempo)
    vocab_size max_step max_duration 0 k ⟨input_notes, 0, temperature, []⟩

/-- The generation loop when the Oracle may raise: a raised exception
propagates out of the whole loop, discarding the partial note list. -/
def genLoopE (oracle : ℕ → Except String (ℤ × ℚ × ℚ)) (scale : List ℤ)
    (ts vocab_size max_step max_duration : ℚ) :
    ℕ → ℕ → GenState → Except String GenState
  | _, 0, st => .ok st
  | i, Nat.succ rem, st =>
    match oracle i with
    | .error e => .error e
    | .ok pred =>
      genLoopE oracle scale ts vocab_size max_step max_duration (i + 1) rem
        (genStep scale ts vocab_size max_step max_duration pred i st)

/-- Embedding of `MelodyServiceV2._generate_with_constraints` with a fallible Oracle. -/
def generate_with_constraintsE (oracle : ℕ → Except String (ℤ × ℚ × ℚ))
    (total_notes : ℕ) (input_notes : List (ℚ × ℚ × ℚ)) (tempo : ℤ) (genre : String)
    (temperature : ℚ) (vocab_size max_step max_duration : ℚ) :
    Except String (List NoteData) :=
  (genLoopE oracle (MusicTheory.get_scale_for_genre genre) (tempo_scale tempo)
    vocab_size max_step max_duration 0 total_notes
    ⟨input_notes, 0, temperature, []⟩).map GenState.notes

/-- The note emitted by one iteration of the loop body, as a function of the
raw prediction and the current time cursor. -/
def genNote (scale : List ℤ) (ts : ℚ) (pred : ℤ × ℚ × ℚ) (prev_start : ℚ) : NoteData :=
  let pitch := MusicTheory.constrain_to_scale pred.1 scale
  let step := max (1/8) (MusicTheory.quantize_duration pred.2.1 (1/8))
  let duration := max (1/8) (MusicTheory.quantize_duration pred.2.2 (1/8))
  let scaled_step := step * ts
  let scaled_duration := duration * ts
  ⟨pitch, prev_start + scaled_step, prev_start + scaled_step + scaled_duration,
    scaled_step, scaled_duration⟩

/-- Scale the emitted (absolute-time) fields of a note by `c`, leaving the
pitch unchanged. -/
def scaleNote (c : ℚ) (n : NoteData) : NoteData :=
  ⟨n.pitch, c * n.start, c * n.end_, c * n.step, c * n.duration⟩

/-- Scale the time cursor and emitted notes of a loop state by `c`, leaving
the context window and temperature unchanged. -/
def scaleGenState (c : ℚ) (st : GenState) : GenState :=
  ⟨st.input_notes, c * st.prev_start, st.temperature, st.notes.map (scaleNote c)⟩

/-- One note as built by `_generate_demo_melody` (keys pitch / step /
duration / start_time — note the shape differs from `NoteData`). -/
structure DemoNote where
  pitch : ℤ
  step : ℚ
  duration : ℚ
  start_time : ℚ
deriving DecidableEq

/-- Python `round(x, 3)`: round half to even at three decimal places. -/
def round3 (x : ℚ) : ℚ := (pyRound (x * 1000) : ℚ) / 1000

/-- One per-genre configuration row of `_generate_demo_melody`. -/
structure DemoConfig where
  scale : List ℤ
  rhythm_pattern : List ℚ
  duration_pattern : List ℚ

/-- The `genre_configs` table of `_generate_demo_melody`. -/
def genre_configs : List (String × DemoConfig) :=
  [("pop", ⟨[60, 62, 64, 65, 67, 69, 71, 72],
            [1/2, 1/2, 1, 1/2, 1/2, 1, 1/4, 1/4],
            [2/5, 2/5, 4/5, 2/5, 2/5, 4/5, 1/5, 1/5]⟩),
   ("jazz", ⟨[60, 63, 65, 66, 67, 70, 72],
             [33/100, 67/100, 1/2, 1/2, 1, 33/100, 67/100],
             [3/10, 3/5, 2/5, 2/5, 9/10, 3/10, 3/5]⟩),
   ("classical", ⟨[60, 62, 64, 65, 67, 69, 71, 72, 74, 76],
                  [1, 1, 1/2, 1/2, 1, 1, 2],
                  [9/10, 9/10, 45/100, 45/100, 9/10, 9/10, 9/5]⟩),
   ("rock", ⟨[60, 63, 65, 67, 70, 72],
             [1/4, 1/4, 1/2, 1/4, 1/4, 1/2, 1],
             [1/5, 1/5, 2/5, 1/5, 1/5, 2/5, 4/5]⟩)]

/-- Loop body of `_generate_demo_melody`: `pitchChoice i` resolves the
`np.random.choice` draw at step `i` to an index, and `jitter i` the two
`np.random.uniform(0.9, 1.1)` factors. -/
def demoLoop (pitchChoice : ℕ → ℕ) (jitter : ℕ → ℚ × ℚ)
    (scale : List ℤ) (rhythm durations : List ℚ) :
    ℕ → ℕ → ℤ → ℚ → List DemoNote
  | _, 0, _, _ => []
  | i, Nat.succ rem, prev_pitch, current_time =>
    let pitch_choices := scale.filter (fun p => |p - prev_pitch| ≤ 5)
    let pitch_choices := if pitch_choices = [] then scale else pitch_choices
    let pitch := pitch_choices.getD (pitchChoice i % pitch_choices.length) 60
    let step := rhythm.getD (i % rhythm.length) 0
    let duration := durations.getD (i % durations.length) 0
    let step := step * (jitter i).1
    let duration := duration * (jitter i).2
    ⟨pitch, round3 step, round3 duration, round3 current_time⟩ ::
      demoLoop pitchChoice jitter scale rhythm durations (i + 1) rem pitch
        (current_time + step)

/-- Embedding of `MelodyServiceV2._generate_demo_melody` with the pseudo-random draws as
explicit streams.  The `tempo` parameter is accepted (as in the source) but
never read. -/
def generate_demo_melody (pitchChoice : ℕ → ℕ) (jitter : ℕ → ℚ × ℚ)
    (num_notes : ℕ) (tempo : ℤ) (genre : String) : List DemoNote :=
  let _ := tempo
  let config := (genre_configs.lookup (pyLower genre)).getD
    ⟨[60, 62, 64, 65, 67, 69, 71, 72],
     [1/2, 1/2, 1, 1/2, 1/2, 1, 1/4, 1/4],
     [2/5, 2/5, 4/5, 2/5, 2/5, 4/5, 1/5, 1/5]⟩
  let scale := config.scale
  let rhythm := config.rhythm_pattern
  let durations := config.duration_pattern
  let prev_pitch := scale.getD (scale.length / 2) 60
  demoLoop pitchChoice jitter scale rhythm durations 0 num_notes prev_pitch 0

/-- Association-list view of a `NoteData` dict, with the keys written by
`_generate_with_constraints`. -/
def NoteData.toPy (n : NoteData) : List (String × ℚ) :=
  [("pitch", (n.pitch : ℚ)), ("start", n.start), ("end", n.end_),
   ("step", n.step), ("duration", n.duration)]

/-- Association-list view of a `DemoNote` dict, with the keys written by
`_generate_demo_melody` (no "start"/"end" keys). -/
def DemoNote.toPy (n : DemoNote) : List (String × ℚ) :=
  [("pitch", (n.pitch : ℚ)), ("step", n.step), ("duration", n.duration),
   ("start_time", n.start_time)]

/-- One MIDI note event (velocity, pitch, start, end). -/
structure MidiNote where
  velocity : ℤ
  pitch : ℤ
  start : ℚ
  end_ : ℚ
deriving DecidableEq

namespace EnhancedMidiGenerator

/-- Genre to instrument program mapping (`INSTRUMENT_MAP`). -/
def INSTRUMENT_MAP : List (String × ℤ) :=
  [("rock", 29), ("jazz", 66), ("classical", 40), ("pop", 0)]

/-- Fixed chord progression roots (I - V - vi - IV). -/
def CHORD_PROGRESSION : List ℤ := [36, 43, 45, 41]

/-- Python float `%` (true mathematical remainder, sign of the divisor). -/
def fmod (x y : ℚ) : ℚ := x - y * ⌊x / y⌋

/-- Dict access `note[key]`: a missing key raises `KeyError`. -/
def lookupKey (note : List (String × ℚ)) (key : String) : Except String ℚ :=
  match note.lookup key with
  | some v => .ok v
  | none => .error ("KeyError: " ++ key)

/-- Melody-track loop of `notes_to_midi_base64`: reads `note['start']`,
`note['end']`, `note['pitch']` for every note, computes the dynamic
velocity, and accumulates the running `total_duration`.  Returns the melody
notes and the final total duration, or the first raised `KeyError`. -/
def melody_loop (velRng : ℕ → ℤ) (seconds_per_beat : ℚ) :
    ℕ → ℚ → List (List (String × ℚ)) → Except String (List MidiNote × ℚ)
  | _, total_duration, [] => .ok ([], total_duration)
  | i, total_duration, note :: rest => do
    let start ← lookupKey note "start"
    let end_ ← lookupKey note "end"
    let pitch ← lookupKey note "pitch"
    let humanize := velRng i
    let beat_pos := fmod (start / seconds_per_beat) 4
    let accent : ℤ :=
      if |beat_pos - 0| < 1/10 then 15
      else if |beat_pos - 2| < 1/10 then 10
      else 0
    let final_velocity := min 127 (max 0 (100 + humanize + accent))
    let rest_result ← melody_loop velRng seconds_per_beat (i + 1)
      (max total_duration end_) rest
    .ok (⟨final_velocity, pyInt pitch, start, end_⟩ :: rest_result.1, rest_result.2)

/-- Generic `while current_time < total_duration` bar loop shared by the bass
and drum tracks: the cursor starts at 0 and advances by `bar` (one bar in
seconds) each iteration, so at iteration `bar_index` it equals
`bar_index * bar`.  The `0 < bar` guard only serves termination; in the
source `bar` is always positive. -/
def barLoop (total bar : ℚ) (f : ℕ → List MidiNote) (bar_index : ℕ) : List MidiNote :=
  if h : 0 < bar ∧ (bar_index : ℚ) * bar < total then
    f bar_index ++ barLoop total bar f (bar_index + 1)
  else []
termination_by ⌈total / bar⌉.toNat - bar_index
decreasing_by
  have h1 : (bar_index : ℚ) < total / bar := (lt_div_iff₀ h.1).mpr h.2
  have h2 : (bar_index : ℤ) < ⌈total / bar⌉ := Int.lt_ceil.mpr (by exact_mod_cast h1)
  omega

/-- Notes emitted for one bar of the bass track: a two-beat chord-root note
at velocity 90, and a second identical-pitch note for beats 3 and 4 at
velocity 85, emitted only if beat 3 starts before the melody ends. -/
def bass_bar (total_duration seconds_per_beat : ℚ) (bar_index : ℕ) : List MidiNote :=
  let current_time : ℚ := (bar_index : ℚ) * (seconds_per_beat * 4)
  let root_pitch := CHORD_PROGRESSION.getD (bar_index % 4) 0
  ⟨90, root_pitch, current_time, current_time + seconds_per_beat * 2⟩ ::
    (if current_time + seconds_per_beat * 2 < total_duration then
      [⟨85, root_pitch, current_time + seconds_per_beat * 2,
        current_time + seconds_per_beat * 4⟩]
    else [])

/-- Bass track of `notes_to_midi_base64`. -/
def bass_track (total_duration seconds_per_beat : ℚ) : List MidiNote :=
  barLoop total_duration (seconds_per_beat * 4) (bass_bar total_duration seconds_per_beat) 0

/-- Notes emitted for one bar of the drum track; `drumRng bar_index slot`
resolves the `np.random.randint` draw for a given slot of the bar. -/
def drum_bar (drumRng : ℕ → ℕ → ℤ) (total_duration seconds_per_beat : ℚ)
    (bar_index : ℕ) : List MidiNote :=
  let current_time : ℚ := (bar_index : ℚ) * (seconds_per_beat * 4)
  let is_fill_bar := (bar_index + 1) % 4 = 0
  if is_fill_bar then
    ((List.range 6).map fun (i : ℕ) =>
      let hat_time := current_time + (i : ℚ) * (seconds_per_beat / 2)
      (⟨drumRng bar_index i, 42, hat_time, hat_time + 1/10⟩ : MidiNote)) ++
    [⟨100, 36, current_time, current_time + 1/10⟩,
     ⟨95, 38, current_time + seconds_per_beat, current_time + seconds_per_beat + 1/10⟩,
     ⟨90, 36, current_time + seconds_per_beat * 2, current_time + seconds_per_beat * 2 + 1/10⟩] ++
    (let fill_start := current_time + seconds_per_beat * 3
     [⟨110, 38, fill_start, fill_start + 1/10⟩,
      ⟨100, 50, fill_start + seconds_per_beat * (1/4), fill_start + seconds_per_beat * (1/4) + 1/10⟩,
      ⟨110, 47, fill_start + seconds_per_beat * (1/2), fill_start + seconds_per_beat * (1/2) + 1/10⟩,
      ⟨120, 43, fill_start + seconds_per_beat * (3/4), fill_start + seconds_per_beat * (3/4) + 1/10⟩])
  else
    (((List.range 8).takeWhile fun (i : ℕ) =>
        decide (current_time + (i : ℚ) * (seconds_per_beat / 2) < total_duration)).map fun (i : ℕ) =>
      let hat_time := current_time + (i : ℚ) * (seconds_per_beat / 2)
      let base_vel : ℤ := if i % 2 = 0 then 85 else 60
      let vel := base_vel + drumRng bar_index (10 + i)
      (⟨max 1 (min 127 vel), 42, hat_time, hat_time + 1/10⟩ : MidiNote)) ++
    ((([0, 2, 5/2] : List ℚ).takeWhile fun kt =>
        decide (current_time + kt * seconds_per_beat < total_duration)).map fun kt =>
      let k_time := current_time + kt * seconds_per_beat
      let vel : ℤ := if fmod kt 1 = 0 then 100 else 90
      (⟨vel, 36, k_time, k_time + 1/10⟩ : MidiNote)) ++
    ((([1, 3] : List ℚ).takeWhile fun st =>
        decide (current_time + st * seconds_per_beat < total_duration)).map fun st =>
      let s_time := current_time + st * seconds_per_beat
      (⟨95 + drumRng bar_index (20 + ⌊st⌋.toNat), 38, s_time, s_time + 1/10⟩ : MidiNote)) ++
    (if bar_index % 2 = 1 then
      let ghost_time := current_time + (15/4) * seconds_per_beat
      if ghost_time < total_duration then
        [⟨50, 38, ghost_time, ghost_time + 1/20⟩]
      else []
    else [])

/-- Drum track of `notes_to_midi_base64`. -/
def drum_track (drumRng : ℕ → ℕ → ℤ) (total_duration seconds_per_beat : ℚ) :
    List MidiNote :=
  barLoop total_duration (seconds_per_beat * 4)
    (drum_bar drumRng total_duration seconds_per_beat) 0

/-- Unified time-scaling factor `120.0 / max(tempo, 1)` of
`notes_to_midi_base64`. -/
def midi_time_scale (tempo : ℤ) : ℚ := 120 / ((max tempo 1 : ℤ) : ℚ)

/-- Scaled beat duration of `notes_to_midi_base64` (half a second at the
reference tempo of 120 BPM). -/
def midi_seconds_per_beat (tempo : ℤ) : ℚ := (1/2) * midi_time_scale tempo

/-- The multi-track symbolic score assembled by `notes_to_midi_base64`
before binary serialization. -/
structure MidiScore where
  initial_tempo : ℤ
  melody_program : ℤ
  melody : List MidiNote
  bass : List MidiNote
  drums : List MidiNote

/-- Body of the `try` block of `notes_to_midi_base64`: build the three
tracks, raising (as `Except.error`) on any missing dict key. -/
def midi_body (velRng : ℕ → ℤ) (drumRng : ℕ → ℕ → ℤ)
    (notes : List (List (String × ℚ))) (tempo : ℤ) (genre : String) :
    Except String MidiScore := do
  let seconds_per_beat := midi_seconds_per_beat tempo
  let program := (INSTRUMENT_MAP.lookup (pyLower genre)).getD 0
  let melody_result ← melody_loop velRng seconds_per_beat 0 0 notes
  let bass := bass_track melody_result.2 seconds_per_beat
  let drums := drum_track drumRng melody_result.2 seconds_per_beat
  .ok ⟨tempo, program, melody_result.1, bass, drums⟩

/-- Embedding of `EnhancedMidiGenerator.notes_to_midi_base64`: any exception inside the
body is swallowed and the empty string is returned; on success the score is
serialized (serialization abstracted as `serialize`). -/
def notes_to_midi_base64 (serialize : MidiScore → String)
    (velRng : ℕ → ℤ) (drumRng : ℕ → ℕ → ℤ)
    (notes : List (List (String × ℚ))) (tempo : ℤ) (genre : String) : String :=
  match midi_body velRng drumRng notes tempo genre with
  | .ok score => serialize score
  | .error _ => ""

end EnhancedMidiGenerator

/-- Embedding of `MelodyServiceV2._create_audio`: wrap a non-empty MIDI payload as a data
URL, otherwise return the empty string. -/
def create_audio (serialize : EnhancedMidiGenerator.MidiScore → String)
    (velRng : ℕ → ℤ) (drumRng : ℕ → ℕ → ℤ)
    (notes : List (List (String × ℚ))) (tempo : ℤ) (genre : String) : String :=
  let midi_base64 := EnhancedMidiGenerator.notes_to_midi_base64 serialize velRng drumRng notes tempo genre
  if midi_base64 ≠ "" then "data:audio/midi;base64," ++ midi_base64 else ""

/-- Result dictionary of `MelodyServiceV2.generate_melody`. -/
structure MelodyResult where
  audio_url : String
  notes : List (List (String × ℚ))
  tempo : ℤ
  genre : String
  bars : ℕ

/-- Embedding of `MelodyServiceV2.generate_melody`: seed, generate (model or demo mode,
falling back to the demo generator if the model path raises), then attach
the MIDI audio.  `num_notes = int(bars * 4 * 1.5) = bars * 6`. -/
def generate_melody (serialize : EnhancedMidiGenerator.MidiScore → String)
    (velRng : ℕ → ℤ) (drumRng : ℕ → ℕ → ℤ)
    (model_loaded : Bool) (oracle : ℕ → Except String (ℤ × ℚ × ℚ))
    (pitchChoice : ℕ → ℕ) (jitter : ℕ → ℚ × ℚ)
    (tempo : ℤ) (genre : String) (bars : ℕ) (temperature : ℚ)
    (vocab_size max_step max_duration : ℚ) : MelodyResult :=
  let num_notes := bars * 6
  let input_notes := SeedGenerator.generate_smart_seed genre 25 vocab_size max_step max_duration
  let notes : List (List (String × ℚ)) :=
    if model_loaded then
      match generate_with_constraintsE oracle num_notes input_notes tempo genre
        temperature vocab_size max_step max_duration with
      | .ok ns => ns.map NoteData.toPy
      | .error _ => (generate_demo_melody pitchChoice jitter num_notes tempo genre).map DemoNote.toPy
    else (generate_demo_melody pitchChoice jitter num_notes tempo genre).map DemoNote.toPy
  let audio_url := create_audio serialize velRng drumRng notes tempo genre
  ⟨audio_url, notes, tempo, genre, bars⟩

/-! Helper lemmas about `constrain_to_scale`. -/

lemma zero_mem_scale {S : List ℤ} (hS : S ∈ MusicTheory.SCALE_LIST) : (0 : ℤ) ∈ S := by
  simp only [MusicTheory.SCALE_LIST, MusicTheory.SCALES, List.map_cons, List.map_nil,
    List.mem_cons, List.not_mem_nil, or_false] at hS
  rcases hS with h | h | h | h <;> subst h <;> decide

lemma nearestInList_facts {S : List ℤ} (hS : S ∈ MusicTheory.SCALE_LIST) {n : ℤ}
    (h0 : 0 ≤ n) (h12 : n < 12) :
    MusicTheory.nearestInList n S ∈ S ∧ 0 ≤ MusicTheory.nearestInList n S ∧
      MusicTheory.nearestInList n S < 12 ∧
      (n ≤ 7 → MusicTheory.nearestInList n S ≤ 7) := by
  simp only [MusicTheory.SCALE_LIST, MusicTheory.SCALES, List.map_cons, List.map_nil,
    List.mem_cons, List.not_mem_nil, or_false] at hS
  rcases hS with h | h | h | h <;> subst h <;> interval_cases n <;> decide

lemma constrain_core {S : List ℤ} (hS : S ∈ MusicTheory.SCALE_LIST) (p : ℤ) :
    0 ≤ MusicTheory.constrain_to_scale p S ∧ MusicTheory.constrain_to_scale p S ≤ 127 ∧
      (MusicTheory.constrain_to_scale p S) % 12 ∈ S := by
  unfold MusicTheory.constrain_to_scale
  by_cases hp : p < 0 ∨ p > 127
  · rw [if_pos hp]
    refine ⟨by norm_num, by norm_num, ?_⟩
    have h60 : (60 : ℤ) % 12 = 0 := by decide
    rw [h60]
    exact zero_mem_scale hS
  · rw [if_neg hp]
    push_neg at hp
    have h0 : 0 ≤ p % 12 := Int.emod_nonneg p (by norm_num)
    have h12 : p % 12 < 12 := Int.emod_lt_of_pos p (by norm_num)
    have hid : 12 * (p / 12) + p % 12 = p := Int.ediv_add_emod p 12
    by_cases hmem : p % 12 ∈ S
    · rw [if_pos hmem]
      exact ⟨hp.1, hp.2, hmem⟩
    · rw [if_neg hmem, ite_self]
      obtain ⟨hne_mem, hne0, hne12, hne7⟩ := nearestInList_facts hS h0 h12
      refine ⟨by omega, ?_, ?_⟩
      · rcases le_or_lt (p % 12) 7 with h7 | h7
        · have := hne7 h7
          omega
        · omega
      · have hmod : (p / 12 * 12 + MusicTheory.nearestInList (p % 12) S) % 12 =
            MusicTheory.nearestInList (p % 12) S := by omega
        rw [hmod]
        exact hne_mem

lemma constrain_fixed {S : List ℤ} (q : ℤ) (h0 : 0 ≤ q) (h127 : q ≤ 127)
    (hmem : q % 12 ∈ S) : MusicTheory.constrain_to_scale q S = q := by
  unfold MusicTheory.constrain_to_scale
  rw [if_neg (by omega), if_pos hmem]

/-- C3: for every integer pitch `p` (including out-of-range pitches, which
map to the default 60) and every scale `S` among the four defined scales,
`constrain_to_scale(p, S) mod 12` is a member of `S`, and
`constrain_to_scale` is idempotent. -/
theorem constrain_to_scale_scale_mem_idem {S : List ℤ}
    (hS : S ∈ MusicTheory.SCALE_LIST) (p : ℤ) :
    ((p < 0 ∨ p > 127) → MusicTheory.constrain_to_scale p S = 60) ∧
    (MusicTheory.constrain_to_scale p S) % 12 ∈ S ∧
    MusicTheory.constrain_to_scale (MusicTheory.constrain_to_scale p S) S =
      MusicTheory.constrain_to_scale p S := by
  obtain ⟨h0, h127, hmem⟩ := constrain_core hS p
  refine ⟨?_, hmem, constrain_fixed _ h0 h127 hmem⟩
  intro hp
  unfold MusicTheory.constrain_to_scale
  rw [if_pos hp]

/-- Witness for C3 at `p = 50` and the major scale. -/
theorem constrain_to_scale_scale_mem_idem_witness :
    ([0, 2, 4, 5, 7, 9, 11] ∈ MusicTheory.SCALE_LIST) ∧
    ((((50 : ℤ) < 0 ∨ (50 : ℤ) > 127) →
        MusicTheory.constrain_to_scale 50 [0, 2, 4, 5, 7, 9, 11] = 60) ∧
      (MusicTheory.constrain_to_scale 50 [0, 2, 4, 5, 7, 9, 11]) % 12 ∈
        ([0, 2, 4, 5, 7, 9, 11] : List ℤ) ∧
      MusicTheory.constrain_to_scale
          (MusicTheory.constrain_to_scale 50 [0, 2, 4, 5, 7, 9, 11]) [0, 2, 4, 5, 7, 9, 11] =
        MusicTheory.constrain_to_scale 50 [0, 2, 4, 5, 7, 9, 11]) :=
  ⟨by decide, constrain_to_scale_scale_mem_idem (by decide) 50⟩

/-- C9: `constrain_to_scale` always returns a pitch in `[0, 127]`:
out-of-range inputs map to 60, in-scale pitches are returned unchanged, and
the reassembled pitch never exceeds 127 (in particular in the top octave,
where an out-of-scale pitch-class is at most 7 and every scale contains
pitch-class 7). -/
theorem constrain_to_scale_output_range {S : List ℤ}
    (hS : S ∈ MusicTheory.SCALE_LIST) (p : ℤ) :
    0 ≤ MusicTheory.constrain_to_scale p S ∧
    MusicTheory.constrain_to_scale p S ≤ 127 ∧
    ((p < 0 ∨ p > 127) → MusicTheory.constrain_to_scale p S = 60) ∧
    (0 ≤ p → p ≤ 127 → p % 12 ∈ S → MusicTheory.constrain_to_scale p S = p) := by
  obtain ⟨h0, h127, _⟩ := constrain_core hS p
  refine ⟨h0, h127, ?_, ?_⟩
  · intro hp
    unfold MusicTheory.constrain_to_scale
    rw [if_pos hp]
  · intro hp0 hp127 hmem
    unfold MusicTheory.constrain_to_scale
    rw [if_neg (by omega), if_pos hmem]

/-- Witness for C9 at `p = 121` (top octave, out of scale) and the blues scale. -/
theorem constrain_to_scale_output_range_witness :
    ([0, 3, 5, 6, 7, 10] ∈ MusicTheory.SCALE_LIST) ∧
    (0 ≤ MusicTheory.constrain_to_scale 121 [0, 3, 5, 6, 7, 10] ∧
      MusicTheory.constrain_to_scale 121 [0, 3, 5, 6, 7, 10] ≤ 127 ∧
      (((121 : ℤ) < 0 ∨ (121 : ℤ) > 127) →
        MusicTheory.constrain_to_scale 121 [0, 3, 5, 6, 7, 10] = 60) ∧
      ((0 : ℤ) ≤ 121 → (121 : ℤ) ≤ 127 → (121 : ℤ) % 12 ∈ ([0, 3, 5, 6, 7, 10] : List ℤ) →
        MusicTheory.constrain_to_scale 121 [0, 3, 5, 6, 7, 10] = 121)) :=
  ⟨by decide, constrain_to_scale_output_range (by decide) 121⟩

/-- C4: for `v ≥ 0` and a positive grid, `quantize_duration v grid` is 0 or
an exact integer multiple of the grid; it is 0 only when `v ≤ 0.05`; and a
positive input whose rounding would yield 0 is clamped up to one grid unit. -/
theorem quantize_duration_multiple_of_grid (v grid : ℚ) (hv : 0 ≤ v) (hg : 0 < grid) :
    (MusicTheory.quantize_duration v grid = 0 ∨
      ∃ k : ℤ, MusicTheory.quantize_duration v grid = (k : ℚ) * grid) ∧
    (MusicTheory.quantize_duration v grid = 0 → v ≤ 1/20) ∧
    (1/20 < v → pyRound (v / grid) = 0 → MusicTheory.quantize_duration v grid = grid) := by
  unfold MusicTheory.quantize_duration
  by_cases hv20 : v ≤ 1/20
  · rw [if_pos hv20]
    exact ⟨Or.inl rfl, fun _ => hv20, fun h => absurd hv20 (not_le.mpr h)⟩
  · rw [if_neg hv20]
    push_neg at hv20
    by_cases hr : (pyRound (v / grid) : ℚ) * grid = 0
    · rw [if_pos ⟨hr, hv20⟩]
      refine ⟨Or.inr ⟨1, by ring⟩, fun h => absurd h (by positivity), fun _ _ => rfl⟩
    · rw [if_neg (by tauto)]
      refine ⟨Or.inr ⟨pyRound (v / grid), rfl⟩, fun h => absurd h hr, ?_⟩
      intro _ h0
      exact absurd (by rw [h0]; norm_num) hr

/-- Witness for C4 at `v = 1/2`, `grid = 1/8`. -/
theorem quantize_duration_multiple_of_grid_witness :
    ((0 : ℚ) ≤ 1/2 ∧ (0 : ℚ) < 1/8) ∧
    ((MusicTheory.quantize_duration (1/2) (1/8) = 0 ∨
        ∃ k : ℤ, MusicTheory.quantize_duration (1/2) (1/8) = (k : ℚ) * (1/8)) ∧
      (MusicTheory.quantize_duration (1/2) (1/8) = 0 → (1/2 : ℚ) ≤ 1/20) ∧
      ((1/20 : ℚ) < 1/2 → pyRound ((1/2) / (1/8)) = 0 →
        MusicTheory.quantize_duration (1/2) (1/8) = 1/8)) :=
  ⟨⟨by norm_num, by norm_num⟩, quantize_duration_multiple_of_grid (1/2) (1/8) (by norm_num) (by norm_num)⟩

/-- C10: the output of `_generate_demo_melody` does not depend on its tempo
argument — for the same draws, note count and genre, any two tempo values
give pointwise equal note lists. -/
theorem generate_demo_melody_tempo_independent (pitchChoice : ℕ → ℕ)
    (jitter : ℕ → ℚ × ℚ) (num_notes : ℕ) (genre : String) (tempo1 tempo2 : ℤ) :
    generate_demo_melody pitchChoice jitter num_notes tempo1 genre =
      generate_demo_melody pitchChoice jitter num_notes tempo2 genre := rfl

/-! Helper lemmas about the generation loop. -/

lemma tempo_scale_pos (tempo : ℤ) : 0 < tempo_scale tempo := by
  unfold tempo_scale
  apply div_pos (by norm_num)
  have h1 : (0 : ℤ) < max tempo 1 := lt_of_lt_of_le zero_lt_one (le_max_right tempo 1)
  exact_mod_cast h1

lemma genStep_notes (scale : List ℤ) (ts vs ms md : ℚ) (pred : ℤ × ℚ × ℚ) (i : ℕ)
    (st : GenState) :
    (genStep scale ts vs ms md pred i st).notes =
      st.notes ++ [genNote scale ts pred st.prev_start] := rfl

lemma genStep_prev (scale : List ℤ) (ts vs ms md : ℚ) (pred : ℤ × ℚ × ℚ) (i : ℕ)
    (st : GenState) :
    (genStep scale ts vs ms md pred i st).prev_start =
      st.prev_start + max (1/8) (MusicTheory.quantize_duration pred.2.1 (1/8)) * ts := rfl

lemma genNote_start (scale : List ℤ) (ts : ℚ) (pred : ℤ × ℚ × ℚ) (p : ℚ) :
    (genNote scale ts pred p).start =
      p + max (1/8) (MusicTheory.quantize_duration pred.2.1 (1/8)) * ts := rfl

lemma genNote_end (scale : List ℤ) (ts : ℚ) (pred : ℤ × ℚ × ℚ) (p : ℚ) :
    (genNote scale ts pred p).end_ =
      p + max (1/8) (MusicTheory.quantize_duration pred.2.1 (1/8)) * ts +
        max (1/8) (MusicTheory.quantize_duration pred.2.2 (1/8)) * ts := rfl

lemma genLoop_notes_length (oracle : ℕ → ℤ × ℚ × ℚ) (scale : List ℤ) (ts vs ms md : ℚ)
    (rem : ℕ) :
    ∀ (i : ℕ) (st : GenState),
      ((genLoop oracle scale ts vs ms md i rem st).notes).length = st.notes.length + rem := by
  induction rem with
  | zero => intro i st; simp [genLoop]
  | succ rem ih =>
    intro i st
    simp only [genLoop]
    rw [ih, genStep_notes]
    simp only [List.length_append, List.length_cons, List.length_nil]
    omega

lemma genLoop_notes_extend (oracle : ℕ → ℤ × ℚ × ℚ) (scale : List ℤ) (ts vs ms md : ℚ)
    (rem : ℕ) :
    ∀ (i : ℕ) (st : GenState),
      ∃ l, (genLoop oracle scale ts vs ms md i rem st).notes = st.notes ++ l := by
  induction rem with
  | zero => intro i st; exact ⟨[], by simp [genLoop]⟩
  | succ rem ih =>
    intro i st
    obtain ⟨l, hl⟩ := ih (i + 1) (genStep scale ts vs ms md (oracle i) i st)
    refine ⟨genNote scale ts (oracle i) st.prev_start :: l, ?_⟩
    simp only [genLoop]
    rw [hl, genStep_notes]
    simp

lemma genStep_inv {scale : List ℤ} {ts vs ms md : ℚ} (hts : 0 ≤ ts)
    (pred : ℤ × ℚ × ℚ) (i : ℕ) (st : GenState)
    (h1 : (st.notes.map NoteData.start).Pairwise (· ≤ ·))
    (h2 : ∀ n ∈ st.notes, n.start ≤ n.end_)
    (h3 : ∀ n ∈ st.notes, n.start ≤ st.prev_start) :
    (((genStep scale ts vs ms md pred i st).notes.map NoteData.start).Pairwise (· ≤ ·)) ∧
    (∀ n ∈ (genStep scale ts vs ms md pred i st).notes, n.start ≤ n.end_) ∧
    (∀ n ∈ (genStep scale ts vs ms md pred i st).notes,
      n.start ≤ (genStep scale ts vs ms md pred i st).prev_start) := by
  have hstep : 0 ≤ max (1/8 : ℚ) (MusicTheory.quantize_duration pred.2.1 (1/8)) * ts :=
    mul_nonneg (le_trans (by norm_num) (le_max_left _ _)) hts
  have hdur : 0 ≤ max (1/8 : ℚ) (MusicTheory.quantize_duration pred.2.2 (1/8)) * ts :=
    mul_nonneg (le_trans (by norm_num) (le_max_left _ _)) hts
  rw [genStep_notes, genStep_prev]
  refine ⟨?_, ?_, ?_⟩
  · rw [List.map_append]
    rw [List.pairwise_append]
    refine ⟨h1, by simp, ?_⟩
    intro a ha b hb
    simp only [List.map_cons, List.map_nil, List.mem_cons, List.not_mem_nil, or_false] at hb
    subst hb
    rw [genNote_start]
    simp only [List.mem_map] at ha
    obtain ⟨n, hn, rfl⟩ := ha
    have := h3 n hn
    linarith
  · intro n hn
    rcases List.mem_append.mp hn with h | h
    · exact h2 n h
    · simp only [List.mem_cons, List.not_mem_nil, or_false] at h
      subst h
      rw [genNote_start, genNote_end]
      linarith
  · intro n hn
    rcases List.mem_append.mp hn with h | h
    · have := h3 n h
      linarith
    · simp only [List.mem_cons, List.not_mem_nil, or_false] at h
      subst h
      rw [genNote_start]

lemma genLoop_inv {oracle : ℕ → ℤ × ℚ × ℚ} {scale : List ℤ} {ts vs ms md : ℚ}
    (hts : 0 ≤ ts) (rem : ℕ) :
    ∀ (i : ℕ) (st : GenState),
      (st.notes.map NoteData.start).Pairwise (· ≤ ·) →
      (∀ n ∈ st.notes, n.start ≤ n.end_) →
      (∀ n ∈ st.notes, n.start ≤ st.prev_start) →
      (((genLoop oracle scale ts vs ms md i rem st).notes.map NoteData.start).Pairwise (· ≤ ·)) ∧
      (∀ n ∈ (genLoop oracle scale ts vs ms md i rem st).notes, n.start ≤ n.end_) ∧
      (∀ n ∈ (genLoop oracle scale ts vs ms md i rem st).notes,
        n.start ≤ (genLoop oracle scale ts vs ms md i rem st).prev_start) := by
  induction rem with
  | zero => intro i st h1 h2 h3; exact ⟨h1, h2, h3⟩
  | succ rem ih =>
    intro i st h1 h2 h3
    simp only [genLoop]
    obtain ⟨g1, g2, g3⟩ := genStep_inv hts (oracle i) i st h1 h2 h3
    exact ih (i + 1) _ g1 g2 g3

/-- C2: for every `total_notes` and every prediction trace,
`_generate_with_constraints` returns exactly `total_notes` notes, the
`start` values are non-decreasing in emission order, and every note
satisfies `end ≥ start`. -/
theorem generate_with_constraints_count_and_order (oracle : ℕ → ℤ × ℚ × ℚ)
    (total_notes : ℕ) (input_notes : List (ℚ × ℚ × ℚ)) (tempo : ℤ) (genre : String)
    (temperature vs ms md : ℚ) :
    (generate_with_constraints oracle total_notes input_notes tempo genre temperature
        vs ms md).length = total_notes ∧
    ((generate_with_constraints oracle total_notes input_notes tempo genre temperature
        vs ms md).map NoteData.start).Pairwise (· ≤ ·) ∧
    (∀ n ∈ generate_with_constraints oracle total_notes input_notes tempo genre temperature
        vs ms md, n.start ≤ n.end_) := by
  unfold generate_with_constraints
  refine ⟨?_, ?_, ?_⟩
  · rw [genLoop_notes_length]
    simp
  · exact (genLoop_inv (le_of_lt (tempo_scale_pos tempo)) total_notes 0 _
      (by simp) (by simp) (by simp)).1
  · exact (genLoop_inv (le_of_lt (tempo_scale_pos tempo)) total_notes 0 _
      (by simp) (by simp) (by simp)).2.1

/-! Tempo-scaling lemmas for C1. -/

lemma genStep_scale (scale : List ℤ) (vs ms md : ℚ) (c ts : ℚ) (pred : ℤ × ℚ × ℚ)
    (i : ℕ) (st : GenState) :
    genStep scale (c * ts) vs ms md pred i (scaleGenState c st) =
      scaleGenState c (genStep scale ts vs ms md pred i st) := by
  simp only [genStep, scaleGenState, scaleNote, GenState.mk.injEq, List.map_append,
    List.map_cons, List.map_nil, List.append_cancel_left_eq, List.cons.injEq,
    NoteData.mk.injEq, and_true, true_and]
  repeat' apply And.intro
  all_goals first
  | rfl
  | ring

lemma genLoop_scale (oracle : ℕ → ℤ × ℚ × ℚ) (scale : List ℤ) (vs ms md : ℚ)
    (c ts : ℚ) (rem : ℕ) :
    ∀ (i : ℕ) (st : GenState),
      genLoop oracle scale (c * ts) vs ms md i rem (scaleGenState c st) =
        scaleGenState c (genLoop oracle scale ts vs ms md i rem st) := by
  induction rem with
  | zero => intro i st; simp [genLoop]
  | succ rem ih =>
    intro i st
    simp only [genLoop]
    rw [genStep_scale, ih]

lemma genLoop_run_scale (oracle : ℕ → ℤ × ℚ × ℚ) (scale : List ℤ) (vs ms md : ℚ)
    (ts : ℚ) (k : ℕ) (w : List (ℚ × ℚ × ℚ)) (temp : ℚ) :
    genLoop oracle scale ts vs ms md 0 k ⟨w, 0, temp, []⟩ =
      scaleGenState ts (genLoop oracle scale 1 vs ms md 0 k ⟨w, 0, temp, []⟩) := by
  have h0 : (⟨w, 0, temp, []⟩ : GenState) = scaleGenState ts ⟨w, 0, temp, []⟩ := by
    simp [scaleGenState]
  calc genLoop oracle scale ts vs ms md 0 k ⟨w, 0, temp, []⟩
      = genLoop oracle scale (ts * 1) vs ms md 0 k (scaleGenState ts ⟨w, 0, temp, []⟩) := by
        rw [mul_one, ← h0]
    _ = scaleGenState ts (genLoop oracle scale 1 vs ms md 0 k ⟨w, 0, temp, []⟩) :=
        genLoop_scale oracle scale vs ms md ts 1 k 0 _

/-- C1: with the same seed window, genre, temperature schedule and per-call
prediction trace, doubling the tempo argument halves every emitted
step/duration and every accumulated start/end, while the context window fed
to the Oracle at each iteration is identical in both runs. -/
theorem tempo_doubling_halves_times (oracle : ℕ → ℤ × ℚ × ℚ)
    (input_notes : List (ℚ × ℚ × ℚ)) (genre : String) (temperature vs ms md : ℚ)
    (tempo : ℤ) (htempo : 1 ≤ tempo) (total_notes : ℕ) :
    (∀ k : ℕ,
      (genStatesAfter oracle input_notes (2 * tempo) genre temperature vs ms md k).input_notes =
      (genStatesAfter oracle input_notes tempo genre temperature vs ms md k).input_notes) ∧
    generate_with_constraints oracle total_notes input_notes (2 * tempo) genre temperature
        vs ms md =
      (generate_with_constraints oracle total_notes input_notes tempo genre temperature
        vs ms md).map
        (fun n => ⟨n.pitch, n.start / 2, n.end_ / 2, n.step / 2, n.duration / 2⟩) := by
  have htnz : ((tempo : ℤ) : ℚ) ≠ 0 := by
    exact_mod_cast (by omega : tempo ≠ 0)
  have hts : tempo_scale (2 * tempo) = tempo_scale tempo / 2 := by
    unfold tempo_scale
    rw [max_eq_left (by omega : (1 : ℤ) ≤ 2 * tempo), max_eq_left htempo]
    push_cast
    field_simp
    ring
  constructor
  · intro k
    unfold genStatesAfter
    rw [genLoop_run_scale oracle (MusicTheory.get_scale_for_genre genre) vs ms md
        (tempo_scale (2 * tempo)) k input_notes temperature,
      genLoop_run_scale oracle (MusicTheory.get_scale_for_genre genre) vs ms md
        (tempo_scale tempo) k input_notes temperature]
    rfl
  · unfold generate_with_constraints
    rw [genLoop_run_scale oracle (MusicTheory.get_scale_for_genre genre) vs ms md
        (tempo_scale (2 * tempo)) total_notes input_notes temperature,
      genLoop_run_scale oracle (MusicTheory.get_scale_for_genre genre) vs ms md
        (tempo_scale tempo) total_notes input_notes temperature, hts]
    simp only [scaleGenState, List.map_map]
    apply List.map_congr_left
    intro n _
    simp only [Function.comp_apply, scaleNote, NoteData.mk.injEq]
    repeat' apply And.intro
    all_goals first
    | trivial
    | ring

/-- Witness for C1 at tempo 120 with a constant prediction trace. -/
theorem tempo_doubling_halves_times_witness :
    (1 : ℤ) ≤ 120 ∧
    ((∀ k : ℕ,
        (genStatesAfter (fun _ => (60, 1/2, 1/2)) [] (2 * 120) "pop" 1 128 1 1 k).input_notes =
        (genStatesAfter (fun _ => (60, 1/2, 1/2)) [] 120 "pop" 1 128 1 1 k).input_notes) ∧
      generate_with_constraints (fun _ => (60, 1/2, 1/2)) 1 [] (2 * 120) "pop" 1 128 1 1 =
        (generate_with_constraints (fun _ => (60, 1/2, 1/2)) 1 [] 120 "pop" 1 128 1 1).map
          (fun n => ⟨n.pitch, n.start / 2, n.end_ / 2, n.step / 2, n.duration / 2⟩)) :=
  ⟨by norm_num,
    tempo_doubling_halves_times (fun _ => (60, 1/2, 1/2)) [] "pop" 1 128 1 1 120 (by norm_num) 1⟩

/-! Concrete evaluation lemmas for C5. -/

lemma pyRound_four : pyRound ((1/2 : ℚ) / (1/8)) = 4 := by
  unfold pyRound
  norm_num

lemma pyRound_three : pyRound ((2/5 : ℚ) / (1/8)) = 3 := by
  unfold pyRound
  norm_num

lemma quantize_half : MusicTheory.quantize_duration (1/2 : ℚ) (1/8) = 1/2 := by
  unfold MusicTheory.quantize_duration
  rw [pyRound_four]
  norm_num

lemma quantize_two_fifths : MusicTheory.quantize_duration (2/5 : ℚ) (1/8) = 3/8 := by
  unfold MusicTheory.quantize_duration
  rw [pyRound_three]
  norm_num

/-- C5: with genre "pop", tempo 120 and a stub Oracle constantly predicting
`(64, 0.5, 0.4)`, the first generated note keeps pitch 64 and has
`start = 0.5`, `end = 0.875`. -/
theorem scenario_A_first_note (input_notes : List (ℚ × ℚ × ℚ)) (temperature : ℚ)
    (total_notes : ℕ) (h : 1 ≤ total_notes) :
    (generate_with_constraints (fun _ => (64, 1/2, 2/5)) total_notes input_notes 120 "pop"
        temperature 128 1 1).head? = some ⟨64, 1/2, 7/8, 1/2, 3/8⟩ := by
  obtain ⟨k, rfl⟩ : ∃ k, total_notes = k + 1 := ⟨total_notes - 1, by omega⟩
  unfold generate_with_constraints
  simp only [genLoop]
  obtain ⟨l, hl⟩ := genLoop_notes_extend (fun _ => (64, 1/2, 2/5))
    (MusicTheory.get_scale_for_genre "pop") (tempo_scale 120) 128 1 1 k 1
    (genStep (MusicTheory.get_scale_for_genre "pop") (tempo_scale 120) 128 1 1
      ((fun _ => ((64 : ℤ), (1/2 : ℚ), (2/5 : ℚ))) 0) 0 ⟨input_notes, 0, temperature, []⟩)
  rw [hl, genStep_notes]
  have hscale : MusicTheory.get_scale_for_genre "pop" = [0, 2, 4, 5, 7, 9, 11] := by decide
  have hts : tempo_scale 120 = 1 := by
    unfold tempo_scale
    rw [max_eq_left (by norm_num : (1 : ℤ) ≤ 120)]
    norm_num
  have hc : MusicTheory.constrain_to_scale 64 [0, 2, 4, 5, 7, 9, 11] = 64 := by decide
  simp only [List.nil_append, List.cons_append, List.head?_cons]
  unfold genNote
  rw [hscale, hts]
  simp only [hc, quantize_half, quantize_two_fifths]
  norm_num

/-- Witness for C5 at `total_notes = 48` (the 8-bar request size). -/
theorem scenario_A_first_note_witness :
    1 ≤ 48 ∧
    (generate_with_constraints (fun _ => (64, 1/2, 2/5)) 48
        (SeedGenerator.generate_smart_seed "pop" 25 128 1 1) 120 "pop"
        (11/10) 128 1 1).head? = some ⟨64, 1/2, 7/8, 1/2, 3/8⟩ :=
  ⟨by norm_num,
    scenario_A_first_note (SeedGenerator.generate_smart_seed "pop" 25 128 1 1) (11/10) 48
      (by norm_num)⟩

namespace EnhancedMidiGenerator

/-! Lemmas about the bar loop and the dict-based melody loop. -/

lemma midi_seconds_per_beat_pos (tempo : ℤ) : 0 < midi_seconds_per_beat tempo := by
  unfold midi_seconds_per_beat midi_time_scale
  have h1 : (0 : ℤ) < max tempo 1 := lt_of_lt_of_le zero_lt_one (le_max_right tempo 1)
  have h2 : (0 : ℚ) < ((max tempo 1 : ℤ) : ℚ) := by exact_mod_cast h1
  positivity

lemma barLoop_contains (total bar : ℚ) (f : ℕ → List MidiNote) (hbar : 0 < bar) :
    ∀ (fuel i b : ℕ), b - i ≤ fuel → i ≤ b → (b : ℚ) * bar < total →
      ∃ pre post, barLoop total bar f i = pre ++ f b ++ post := by
  intro fuel
  induction fuel with
  | zero =>
    intro i b h1 h2 h3
    have hib : i = b := by omega
    subst hib
    unfold barLoop
    rw [dif_pos ⟨hbar, h3⟩]
    exact ⟨[], barLoop total bar f (i + 1), by simp⟩
  | succ fuel ih =>
    intro i b h1 h2 h3
    by_cases hib : i = b
    · subst hib
      unfold barLoop
      rw [dif_pos ⟨hbar, h3⟩]
      exact ⟨[], barLoop total bar f (i + 1), by simp⟩
    · have hcast : (i : ℚ) ≤ (b : ℚ) := by exact_mod_cast h2
      have hlt : (i : ℚ) * bar < total :=
        lt_of_le_of_lt (mul_le_mul_of_nonneg_right hcast (le_of_lt hbar)) h3
      unfold barLoop
      rw [dif_pos ⟨hbar, hlt⟩]
      obtain ⟨pre, post, hp⟩ := ih (i + 1) b (by omega) (by omega) h3
      exact ⟨f i ++ pre, post, by rw [hp]; simp [List.append_assoc]⟩

/-- C7: every bar of the bass track whose start cursor lies before the
melody's total duration contributes a chunk consisting of a two-beat
chord-root note at velocity 90 followed — only if beat 3 starts before the
melody's total duration — by a second note at the same pitch covering beats
3–4 at velocity 85, the root being chosen by `bar_index % 4` from
`CHORD_PROGRESSION`. -/
theorem bass_track_per_bar (tempo : ℤ) (total_duration : ℚ) (b : ℕ)
    (hb : (b : ℚ) * (midi_seconds_per_beat tempo * 4) < total_duration) :
    (∃ pre post,
      bass_track total_duration (midi_seconds_per_beat tempo) =
        pre ++ bass_bar total_duration (midi_seconds_per_beat tempo) b ++ post) ∧
    bass_bar total_duration (midi_seconds_per_beat tempo) b =
      ⟨90, CHORD_PROGRESSION.getD (b % 4) 0,
          (b : ℚ) * (midi_seconds_per_beat tempo * 4),
          (b : ℚ) * (midi_seconds_per_beat tempo * 4) + midi_seconds_per_beat tempo * 2⟩ ::
        (if (b : ℚ) * (midi_seconds_per_beat tempo * 4) +
              midi_seconds_per_beat tempo * 2 < total_duration then
          [⟨85, CHORD_PROGRESSION.getD (b % 4) 0,
            (b : ℚ) * (midi_seconds_per_beat tempo * 4) + midi_seconds_per_beat tempo * 2,
            (b : ℚ) * (midi_seconds_per_beat tempo * 4) + midi_seconds_per_beat tempo * 4⟩]
        else []) := by
  have hbar : 0 < midi_seconds_per_beat tempo * 4 := by
    have := midi_seconds_per_beat_pos tempo
    linarith
  exact ⟨barLoop_contains total_duration _ _ hbar b 0 b (by omega) (Nat.zero_le b) hb, rfl⟩

/-- Witness for C7 at tempo 120, total duration 4 s, bar 1. -/
theorem bass_track_per_bar_witness :
    (((1 : ℕ) : ℚ) * (midi_seconds_per_beat 120 * 4) < 4) ∧
    ((∃ pre post,
        bass_track 4 (midi_seconds_per_beat 120) =
          pre ++ bass_bar 4 (midi_seconds_per_beat 120) 1 ++ post) ∧
      bass_bar 4 (midi_seconds_per_beat 120) 1 =
        ⟨90, CHORD_PROGRESSION.getD (1 % 4) 0,
            ((1 : ℕ) : ℚ) * (midi_seconds_per_beat 120 * 4),
            ((1 : ℕ) : ℚ) * (midi_seconds_per_beat 120 * 4) + midi_seconds_per_beat 120 * 2⟩ ::
          (if ((1 : ℕ) : ℚ) * (midi_seconds_per_beat 120 * 4) +
                midi_seconds_per_beat 120 * 2 < 4 then
            [⟨85, CHORD_PROGRESSION.getD (1 % 4) 0,
              ((1 : ℕ) : ℚ) * (midi_seconds_per_beat 120 * 4) + midi_seconds_per_beat 120 * 2,
              ((1 : ℕ) : ℚ) * (midi_seconds_per_beat 120 * 4) + midi_seconds_per_beat 120 * 4⟩]
          else [])) := by
  have hmax : (max (120 : ℤ) 1) = 120 := by decide
  have hb : (((1 : ℕ) : ℚ) * (midi_seconds_per_beat 120 * 4) < 4) := by
    unfold midi_seconds_per_beat midi_time_scale
    rw [hmax]
    norm_num
  exact ⟨hb, bass_track_per_bar 120 4 1 hb⟩

lemma lookup_start_demo (n : DemoNote) :
    lookupKey (DemoNote.toPy n) "start" = .error "KeyError: start" := by
  cases n
  rfl

/-- C8: on any non-empty note list produced by `_generate_demo_melody`
(whose dicts lack the "start" key), `notes_to_midi_base64` returns the empty
string — the `KeyError` is swallowed by the blanket handler — and hence
`_create_audio` returns an empty audio URL. -/
theorem demo_notes_midi_empty (serialize : MidiScore → String) (velRng : ℕ → ℤ)
    (drumRng : ℕ → ℕ → ℤ) (pitchChoice : ℕ → ℕ) (jitter : ℕ → ℚ × ℚ)
    (num_notes : ℕ) (tempo tempo2 : ℤ) (genre genre2 : String)
    (h : generate_demo_melody pitchChoice jitter num_notes tempo genre ≠ []) :
    notes_to_midi_base64 serialize velRng drumRng
        ((generate_demo_melody pitchChoice jitter num_notes tempo genre).map DemoNote.toPy)
        tempo2 genre2 = "" ∧
    create_audio serialize velRng drumRng
        ((generate_demo_melody pitchChoice jitter num_notes tempo genre).map DemoNote.toPy)
        tempo2 genre2 = "" := by
  obtain ⟨n, rest, hcons⟩ :
      ∃ n rest, generate_demo_melody pitchChoice jitter num_notes tempo genre = n :: rest := by
    cases hd : generate_demo_melody pitchChoice jitter num_notes tempo genre with
    | nil => exact absurd hd h
    | cons a l => exact ⟨a, l, rfl⟩
  have hmain : notes_to_midi_base64 serialize velRng drumRng
      ((generate_demo_melody pitchChoice jitter num_notes tempo genre).map DemoNote.toPy)
      tempo2 genre2 = "" := by
    rw [hcons]
    simp only [List.map_cons]
    unfold notes_to_midi_base64 midi_body melody_loop
    rw [lookup_start_demo]
    rfl
  refine ⟨hmain, ?_⟩
  unfold create_audio
  rw [hmain]
  simp

/-- Witness for C8 with one demo note for genre "pop". -/
theorem demo_notes_midi_empty_witness :
    generate_demo_melody (fun _ => 0) (fun _ => (1, 1)) 1 120 "pop" ≠ [] ∧
    (notes_to_midi_base64 (fun _ => "midi") (fun _ => 0) (fun _ _ => 0)
        ((generate_demo_melody (fun _ => 0) (fun _ => (1, 1)) 1 120 "pop").map DemoNote.toPy)
        120 "pop" = "" ∧
      create_audio (fun _ => "midi") (fun _ => 0) (fun _ _ => 0)
        ((generate_demo_melody (fun _ => 0) (fun _ => (1, 1)) 1 120 "pop").map DemoNote.toPy)
        120 "pop" = "") := by
  have h : generate_demo_melody (fun _ => 0) (fun _ => (1, 1)) 1 120 "pop" ≠ [] := by decide
  exact ⟨h, demo_notes_midi_empty (fun _ => "midi") (fun _ => 0) (fun _ _ => 0)
    (fun _ => 0) (fun _ => (1, 1)) 1 120 120 "pop" "pop" h⟩

end EnhancedMidiGenerator

/-- C6: if the model is loaded and the generation loop raises, the exception
is caught once for the whole request and `generate_melody` returns exactly
the demo fallback note list for the same `num_notes`, tempo and genre — no
partial model-generated sequence, and no exception reaches the caller. -/
theorem generate_melody_oracle_failure_fallback
    (serialize : EnhancedMidiGenerator.MidiScore → String) (velRng : ℕ → ℤ)
    (drumRng : ℕ → ℕ → ℤ) (oracle : ℕ → Except String (ℤ × ℚ × ℚ))
    (pitchChoice : ℕ → ℕ) (jitter : ℕ → ℚ × ℚ) (tempo : ℤ) (genre : String)
    (bars : ℕ) (temperature vs ms md : ℚ) (e : String)
    (herr : generate_with_constraintsE oracle (bars * 6)
        (SeedGenerator.generate_smart_seed genre 25 vs ms md) tempo genre temperature
        vs ms md = .error e) :
    (generate_melody serialize velRng drumRng true oracle pitchChoice jitter tempo genre
        bars temperature vs ms md).notes =
      (generate_demo_melody pitchChoice jitter (bars * 6) tempo genre).map DemoNote.toPy := by
  unfold generate_melody
  simp only [herr, if_true, eq_self_iff_true]

/-- Witness for C6: an Oracle that raises on its first call. -/
theorem generate_melody_oracle_failure_fallback_witness :
    (generate_with_constraintsE (fun _ => .error "boom") (1 * 6)
        (SeedGenerator.generate_smart_seed "pop" 25 128 1 1) 120 "pop" 1 128 1 1 =
      .error "boom") ∧
    (generate_melody (fun _ => "") (fun _ => 0) (fun _ _ => 0) true (fun _ => .error "boom")
        (fun _ => 0) (fun _ => (1, 1)) 120 "pop" 1 1 128 1 1).notes =
      (generate_demo_melody (fun _ => 0) (fun _ => (1, 1)) (1 * 6) 120 "pop").map
        DemoNote.toPy := by
  have herr : generate_with_constraintsE (fun _ => .error "boom") (1 * 6)
      (SeedGenerator.generate_smart_seed "pop" 25 128 1 1) 120 "pop" 1 128 1 1 =
      .error "boom" := rfl
  exact ⟨herr, generate_melody_oracle_failure_fallback (fun _ => "") (fun _ => 0)
    (fun _ _ => 0) (fun _ => .error "boom") (fun _ => 0) (fun _ => (1, 1)) 120 "pop" 1 1
    128 1 1 "boom" herr⟩

end MelodyService
